import Mathlib

/-!
Verification of the coreos-metadata network synthesizer, SSH key
normalizers, provider fetch orchestration and retry client, against a
shallow embedding of the Go source.

Strings from the Go side are embedded as `List Char` in the parsing
primitives (so that everything reduces in the kernel) and as `String` at
the provider level.  IP addresses, IP masks and MAC addresses are byte
lists (`List Nat`, each entry < 256), matching Go's `net.IP`, `net.IPMask`
and `net.HardwareAddr` slices; a `nil` Go slice is the empty list.
-/

namespace CoreosMetadata

/-! ## Go `net` package primitives (dtoi, xtoi, ParseIP, ParseMAC, masks) -/

/-- Decimal digit test, as in Go `'0' <= c && c <= '9'`. -/
def isDigitGo (c : Char) : Bool :=
  '0' ≤ c ∧ c ≤ '9'

/-- Hexadecimal digit value, as accepted by Go `xtoi` (both cases). -/
def hexVal (c : Char) : Option Nat :=
  if '0' ≤ c ∧ c ≤ '9' then some (c.toNat - '0'.toNat)
  else if 'a' ≤ c ∧ c ≤ 'f' then some (c.toNat - 'a'.toNat + 10)
  else if 'A' ≤ c ∧ c ≤ 'F' then some (c.toNat - 'A'.toNat + 10)
  else none

/-- Go `net.dtoi` overflow cutoff (`big = 0xFFFFFF`). -/
def dtoiBig : Nat := 0xFFFFFF

/-- Loop of Go `net.dtoi`: accumulate decimal digits, counting consumed
characters, failing on overflow past `dtoiBig`. -/
def dtoiLoop : List Char → Nat → Nat → Nat × Nat × Bool
  | [], n, i => (n, i, true)
  | c :: rest, n, i =>
    if isDigitGo c then
      let n2 := n * 10 + (c.toNat - '0'.toNat)
      if n2 ≥ dtoiBig then (dtoiBig, i, false)
      else dtoiLoop rest n2 (i + 1)
    else (n, i, true)

/-- Go `net.dtoi`: parse a decimal prefix, returning value, consumed
count and success (failure when no digit was consumed or on overflow). -/
def dtoi (s : List Char) : Nat × Nat × Bool :=
  let r := dtoiLoop s 0 0
  if r.2.1 = 0 ∧ r.2.2 then (0, 0, false) else r

/-- Loop of Go `net.xtoi`: accumulate hex digits with the same cutoff. -/
def xtoiLoop : List Char → Nat → Nat → Nat × Nat × Bool
  | [], n, i => (n, i, true)
  | c :: rest, n, i =>
    match hexVal c with
    | some d =>
      let n2 := n * 16 + d
      if n2 ≥ dtoiBig then (0, i, false)
      else xtoiLoop rest n2 (i + 1)
    | none => (n, i, true)

/-- Go `net.xtoi`: parse a hexadecimal prefix. -/
def xtoi (s : List Char) : Nat × Nat × Bool :=
  let r := xtoiLoop s 0 0
  if r.2.1 = 0 ∧ r.2.2 then (0, 0, false) else r

/-- The `v4InV6Prefix` used by Go `net.IPv4`: 16-byte IPs embed an IPv4
address in the last 4 bytes after this prefix. -/
def v4InV6Prefix : List Nat := [0, 0, 0, 0, 0, 0, 0, 0, 0, 0, 0xFF, 0xFF]

/-- Go `net.IPv4(a,b,c,d)`: the 16-byte representation. -/
def ipv4Bytes (a b c d : Nat) : List Nat := v4InV6Prefix ++ [a, b, c, d]

/-- Loop of Go `net.parseIPv4`: parse `fld` remaining dotted-decimal
fields (each 0..255), expecting a `'.'` between fields and end of input
after the last. -/
def parseV4Loop : Nat → List Char → List Nat → Option (List Nat)
  | 0, s, acc => if s = [] then some acc else none
  | fld + 1, s, acc =>
    let t := dtoi s
    if t.2.2 = false ∨ t.1 > 255 then none
    else
      let rest := s.drop t.2.1
      if fld = 0 then parseV4Loop fld rest (acc ++ [t.1])
      else
        match rest with
        | '.' :: r2 => parseV4Loop fld r2 (acc ++ [t.1])
        | _ => none

/-- Go `net.parseIPv4`: dotted-decimal IPv4 literal to its 16-byte
representation. -/
def parseIPv4Go (s : List Char) : Option (List Nat) :=
  match parseV4Loop 4 s [] with
  | none => none
  | some [a, b, c, d] => some (ipv4Bytes a b c d)
  | some _ => none

/-- Loop of Go `net.parseIPv6`.  State: fuel (the loop runs at most 8
times since `i` grows by at least 2 per iteration), remaining input,
bytes written `i`, ellipsis position, accumulated bytes.  Returns the
state at loop exit, or `none` on a parse error. -/
def parseV6Loop : Nat → List Char → Nat → Option Nat → List Nat →
    Option (List Char × Nat × Option Nat × List Nat)
  | fuel, s, i, el, acc =>
    if i ≥ 16 then some (s, i, el, acc)
    else
      match fuel with
      | 0 => none
      | fuel + 1 =>
        let t := xtoi s
        if t.2.2 = false ∨ t.1 > 0xFFFF then none
        else
          match s.drop t.2.1 with
          | '.' :: _ =>
            if (el = none ∧ i ≠ 12) ∨ i + 4 > 16 then none
            else
              match parseIPv4Go s with
              | none => none
              | some ip16 => some ([], i + 4, el, acc ++ ip16.drop 12)
          | [] => some ([], i + 2, el, acc ++ [t.1 / 256, t.1 % 256])
          | [':'] => none
          | ':' :: ':' :: s3 =>
            if el.isSome then none
            else if s3 = [] then
              some ([], i + 2, some (i + 2), acc ++ [t.1 / 256, t.1 % 256])
            else
              parseV6Loop fuel s3 (i + 2) (some (i + 2))
                (acc ++ [t.1 / 256, t.1 % 256])
          | ':' :: s3 => parseV6Loop fuel s3 (i + 2) el (acc ++ [t.1 / 256, t.1 % 256])
          | _ => none

/-- Post-loop processing of Go `net.parseIPv6`: reject leftover input,
then expand the ellipsis with zero bytes (or reject a missing/extra
ellipsis). -/
def parseV6Finish : List Char × Nat × Option Nat × List Nat → Option (List Nat)
  | (rem, i, el, acc) =>
    if rem ≠ [] then none
    else if i < 16 then
      match el with
      | none => none
      | some e => some (acc.take e ++ List.replicate (16 - i) 0 ++ acc.drop e)
    else
      match el with
      | some _ => none
      | none => some acc

/-- Go `net.parseIPv6` (without zone handling, which the repository never
exercises): IPv6 literal to its 16-byte representation. -/
def parseV6Go (s : List Char) : Option (List Nat) :=
  match s with
  | ':' :: ':' :: rest =>
    if rest = [] then some (List.replicate 16 0)
    else
      match parseV6Loop 9 rest 0 (some 0) [] with
      | none => none
      | some st => parseV6Finish st
  | _ =>
    match parseV6Loop 9 s 0 none [] with
    | none => none
    | some st => parseV6Finish st

/-- Character scan of Go `net.ParseIP`: the first `'.'` or `':'` decides
between the IPv4 and IPv6 parser. -/
def parseIPScan : List Char → List Char → Option (List Nat)
  | _, [] => none
  | s, c :: rest =>
    if c = '.' then parseIPv4Go s
    else if c = ':' then parseV6Go s
    else parseIPScan s rest

/-- Go `net.ParseIP`. -/
def parseIPGo (s : List Char) : Option (List Nat) :=
  parseIPScan s s

/-- Go `net.IP.To4`: 4-byte IPs pass through, 16-byte IPs with the
v4-in-v6 prefix are truncated to their last 4 bytes, anything else is
`nil` (the empty list). -/
def to4 (ip : List Nat) : List Nat :=
  if ip.length = 4 then ip
  else if ip.length = 16 ∧ ip.take 12 = v4InV6Prefix then ip.drop 12
  else []

/-- Bytes of Go `net.CIDRMask`: `ones` leading one-bits over `k` bytes. -/
def cidrMaskBytes : Nat → Nat → List Nat
  | _, 0 => []
  | ones, k + 1 =>
    if ones ≥ 8 then 255 :: cidrMaskBytes (ones - 8) k
    else if ones = 0 then 0 :: cidrMaskBytes 0 k
    else (256 - 2 ^ (8 - ones)) :: cidrMaskBytes 0 k

/-- Go `net.CIDRMask ones 128` as used by `parseIPv6Address` (`nil` when
out of range; the source's `Cidr` field is a Go `int`). -/
def cidrMask128 (ones : Int) : List Nat :=
  if ones < 0 ∨ ones > 128 then [] else cidrMaskBytes ones.toNat 16

/-- Go `net.xtoi2`: two hex digits, the following character (if any)
must equal `e`. -/
def xtoi2 (s : List Char) (e : Char) : Option Nat :=
  match s with
  | a :: b :: rest =>
    match hexVal a, hexVal b with
    | some ha, some hb =>
      match rest with
      | [] => some (ha * 16 + hb)
      | c :: _ => if c = e then some (ha * 16 + hb) else none
    | _, _ => none
  | _ => none

/-- Colon/dash group loop of Go `net.ParseMAC`: `k` remaining two-digit
hex groups separated by `sep`. -/
def macSepLoop : Nat → List Char → Char → List Nat → Option (List Nat)
  | 0, _, _, acc => some acc
  | k + 1, s, sep, acc =>
    match xtoi2 s sep with
    | none => none
    | some b => macSepLoop k (s.drop 3) sep (acc ++ [b])

/-- Dot-format group loop of Go `net.ParseMAC`: `k` remaining four-digit
hex groups separated by `'.'`. -/
def macDotLoop : Nat → List Char → List Nat → Option (List Nat)
  | 0, _, acc => some acc
  | k + 1, s, acc =>
    match xtoi2 (s.take 2) (Char.ofNat 0), xtoi2 (s.drop 2) '.' with
    | some b1, some b2 => macDotLoop k (s.drop 5) (acc ++ [b1, b2])
    | _, _ => none

/-- Go `net.ParseMAC`: EUI-48, EUI-64 and 20-octet addresses in colon,
dash or dot notation; hex digits of either case. -/
def parseMACGo (s : List Char) : Option (List Nat) :=
  if s.length < 14 then none
  else if s.get? 2 = some ':' ∨ s.get? 2 = some '-' then
    if (s.length + 1) % 3 ≠ 0 then none
    else
      let n := (s.length + 1) / 3
      if n ≠ 6 ∧ n ≠ 8 ∧ n ≠ 20 then none
      else macSepLoop n s ((s.get? 2).getD ':') []
  else if s.get? 4 = some '.' then
    if (s.length + 1) % 5 ≠ 0 then none
    else
      let n := 2 * ((s.length + 1) / 5)
      if n ≠ 6 ∧ n ≠ 8 ∧ n ≠ 20 then none
      else macDotLoop (n / 2) s []
  else none

/-! ## Generic string and association-list helpers (Go `strings`, maps) -/

/-- Go `strings.Split` on a single-character separator. -/
def splitChar (sep : Char) : List Char → List (List Char)
  | [] => [[]]
  | c :: rest =>
    if c = sep then [] :: splitChar sep rest
    else
      match splitChar sep rest with
      | [] => [[c]]
      | g :: gs => (c :: g) :: gs

/-- First occurrence split: `some (before, after)` around the first `sep`,
`none` when `sep` does not occur.  `splitN s sep 2` in Go returns two
tokens exactly when this returns `some`. -/
def splitFirst (sep : Char) : List Char → Option (List Char × List Char)
  | [] => none
  | c :: rest =>
    if c = sep then some ([], rest)
    else (splitFirst sep rest).map (fun p => (c :: p.1, p.2))

/-- Drop one terminal `'\r'`, as `dropCR` inside Go `bufio.ScanLines`. -/
def dropCR (l : List Char) : List Char :=
  match l.getLast? with
  | some '\r' => l.dropLast
  | _ => l

/-- The sequence of tokens produced by a Go `bufio.Scanner` with the
default `ScanLines` split function: no token for empty input, no empty
final token after a trailing newline, terminal `'\r'` stripped. -/
def scanLines (s : List Char) : List (List Char) :=
  if s = [] then []
  else
    let parts := splitChar '\n' s
    let parts := if parts.getLast? = some [] then parts.dropLast else parts
    parts.map dropCR

/-- Go map assignment `m[k] = v`, on an association-list model (update in
place, insert at the end when absent). -/
def updateAssoc {β : Type} : List (String × β) → String → β → List (String × β)
  | [], k, v => [(k, v)]
  | (k0, v0) :: rest, k, v =>
    if k0 = k then (k, v) :: rest else (k0, v0) :: updateAssoc rest k v

/-- Go map read `m[k]` (without the ok flag). -/
def lookupAssoc {β : Type} : List (String × β) → String → Option β
  | [], _ => none
  | (k0, v0) :: rest, k => if k0 = k then some v0 else lookupAssoc rest k

/-- Fold a sequence of `(value, key)` pairs into a map by repeated
assignment, as the `keyIDs` loop does. -/
def updFold (m : List (String × String)) (ps : List (String × String)) :
    List (String × String) :=
  ps.foldl (fun m p => updateAssoc m p.2 p.1) m

/-! ## Data model (`internal/providers`) -/

namespace providers

/-- `providers.NetworkRoute`: `Destination net.IPNet; Gateway net.IP`. -/
structure NetworkRoute where
  destinationIP : List Nat
  destinationMask : List Nat
  gateway : List Nat
  deriving DecidableEq, Repr

/-- `providers.NetworkInterface`. -/
structure NetworkInterface where
  hardwareAddress : List Nat
  nameservers : List (List Nat)
  ipAddresses : List (List Nat × List Nat)
  routes : List NetworkRoute
  deriving DecidableEq, Repr

/-- `providers.Metadata`. -/
structure Metadata where
  attributes : List (String × String)
  hostname : String
  sshKeys : List String
  network : List NetworkInterface
  deriving DecidableEq, Repr

/-- Modelled from the spec: the helper `providers.String` (used by the
provider glue to render fetched IPs into attribute values) is not under
src/; per the call sites it must accept an absent IP.  We render an
absent IP as the empty string and a present IP opaquely from its bytes;
no claim depends on the exact rendering of a present IP. -/
def ipString (ip : Option (List Nat)) : String :=
  match ip with
  | none => ""
  | some bs => String.intercalate "." (bs.map (fun b => toString b))

end providers

/-! ## Network synthesizer (`internal/providers/digitalocean`) -/

namespace digitalocean

/-- `digitalocean.Address`. -/
structure Address where
  ipAddress : String
  netmask : String
  cidr : Int
  gateway : String
  deriving DecidableEq, Repr

/-- `digitalocean.Interface`. -/
structure Interface where
  ipv4 : Option Address
  ipv6 : Option Address
  anchorIPv4 : Option Address
  mac : String
  type : String
  deriving DecidableEq, Repr

/-- `digitalocean.Interfaces`. -/
structure Interfaces where
  public : List Interface
  «private» : List Interface
  deriving DecidableEq, Repr

/-- `digitalocean.DNS`. -/
structure DNS where
  nameservers : List String
  deriving DecidableEq, Repr

/-- `digitalocean.Metadata` (the provider-native JSON document). -/
structure Metadata where
  hostname : String
  interfaces : Interfaces
  publicKeys : List String
  region : String
  dns : DNS
  deriving DecidableEq, Repr

/-- `parseIPv4Address`: parse the IP and the dotted netmask, convert the
netmask with `To4` (Go performs no nil-check on the `To4` result). -/
def parseIPv4Address (address : Address) : Except String (List Nat × List Nat) :=
  match parseIPGo address.ipAddress.data with
  | none => .error ("could not parse " ++ address.ipAddress ++ " as IPv4 address")
  | some ip =>
    match parseIPGo address.netmask.data with
    | none => .error ("could not parse " ++ address.netmask ++ " as IPv4 mask")
    | some mask => .ok (ip, to4 mask)

/-- `parseIPv6Address`: parse the IP, mask from the explicit CIDR prefix
length. -/
def parseIPv6Address (address : Address) : Except String (List Nat × List Nat) :=
  match parseIPGo address.ipAddress.data with
  | none => .error ("could not parse " ++ address.ipAddress ++ " as IPv6 address")
  | some ip => .ok (ip, cidrMask128 address.cidr)

/-- `parseRoute`: parse the gateway, route to the given destination. -/
def parseRoute (gateway : String) (destination : List Nat × List Nat) :
    Except String providers.NetworkRoute :=
  match parseIPGo gateway.data with
  | none => .error ("could not parse " ++ gateway ++ " as gateway address")
  | some addr => .ok ⟨destination.1, destination.2, addr⟩

/-- The default IPv4 route destination `net.IPNet{IP: net.IPv4zero,
Mask: net.IPMask(net.IPv4zero)}` (both the 16-byte representation). -/
def defaultDestV4 : List Nat × List Nat := (ipv4Bytes 0 0 0 0, ipv4Bytes 0 0 0 0)

/-- The default IPv6 route destination `net.IPNet{IP: net.IPv6zero,
Mask: net.IPMask(net.IPv6zero)}`. -/
def defaultDestV6 : List Nat × List Nat := (List.replicate 16 0, List.replicate 16 0)

/-- A route whose destination is one of the two default-route
destinations the synthesizer can emit (`0.0.0.0/0` or `::/0`). -/
def isDefaultRoute (r : providers.NetworkRoute) : Prop :=
  (r.destinationIP = defaultDestV4.1 ∧ r.destinationMask = defaultDestV4.2) ∨
  (r.destinationIP = defaultDestV6.1 ∧ r.destinationMask = defaultDestV6.2)

/-- `parseNameservers`: all entries must parse as IPs. -/
def parseNameservers : List String → Except String (List (List Nat))
  | [] => .ok []
  | server :: rest =>
    match parseIPGo server.data with
    | none => .error ("could not parse " ++ server ++ " as IP address")
    | some addr =>
      match parseNameservers rest with
      | .error e => .error e
      | .ok addrs => .ok (addr :: addrs)

/-- The `if iface.IPv4 != nil` block of `parseInterface`: the parsed
address, its host route, and an extra IPv4 default route via the same
gateway when the description is public. -/
def blockV4 (a? : Option Address) (pub : Bool) :
    Except String (List (List Nat × List Nat) × List providers.NetworkRoute) :=
  match a? with
  | none => .ok ([], [])
  | some a =>
    match parseIPv4Address a with
    | .error e => .error e
    | .ok addr =>
      match parseRoute a.gateway addr with
      | .error e => .error e
      | .ok route =>
        .ok ([addr],
          route :: (if pub then [⟨defaultDestV4.1, defaultDestV4.2, route.gateway⟩] else []))

/-- The `if iface.IPv6 != nil` block of `parseInterface`, with the IPv6
default route. -/
def blockV6 (a? : Option Address) (pub : Bool) :
    Except String (List (List Nat × List Nat) × List providers.NetworkRoute) :=
  match a? with
  | none => .ok ([], [])
  | some a =>
    match parseIPv6Address a with
    | .error e => .error e
    | .ok addr =>
      match parseRoute a.gateway addr with
      | .error e => .error e
      | .ok route =>
        .ok ([addr],
          route :: (if pub then [⟨defaultDestV6.1, defaultDestV6.2, route.gateway⟩] else []))

/-- The `if iface.AnchorIPv4 != nil` block of `parseInterface`: only the
host route, never a default route, whatever the flag. -/
def blockAnchor (a? : Option Address) :
    Except String (List (List Nat × List Nat) × List providers.NetworkRoute) :=
  match a? with
  | none => .ok ([], [])
  | some a =>
    match parseIPv4Address a with
    | .error e => .error e
    | .ok addr =>
      match parseRoute a.gateway addr with
      | .error e => .error e
      | .ok route => .ok ([addr], [route])

/-- `parseInterface`: addresses and routes contributed by one interface
description, accumulated block by block in source order (IPv4, IPv6,
anchor IPv4). -/
def parseInterface (iface : Interface) (pub : Bool) :
    Except String (List (List Nat × List Nat) × List providers.NetworkRoute) :=
  match blockV4 iface.ipv4 pub with
  | .error e => .error e
  | .ok p4 =>
    match blockV6 iface.ipv6 pub with
    | .error e => .error e
    | .ok p6 =>
      match blockAnchor iface.anchorIPv4 with
      | .error e => .error e
      | .ok pa => .ok (p4.1 ++ p6.1 ++ pa.1, p4.2 ++ p6.2 ++ pa.2)

/-- The Go zero value of `providers.NetworkInterface`, read out of the
`ifaceConfigs` map for a MAC string not yet present. -/
def emptyNI : providers.NetworkInterface := ⟨[], [], [], []⟩

/-- Loop body of `parseNetwork`: fold the interface descriptions into
the `ifaceConfigs` map (an association list keyed by the raw MAC
string). -/
def parseNetworkLoop (servers : List (List Nat)) :
    List Interface → List (String × providers.NetworkInterface) →
    Except String (List (String × providers.NetworkInterface))
  | [], cfgs => .ok cfgs
  | iface :: rest, cfgs =>
    match parseMACGo iface.mac.data with
    | none => .error ("could not parse " ++ iface.mac ++ " as MAC address")
    | some mac =>
      match parseInterface iface (iface.type == "public") with
      | .error e => .error e
      | .ok (addrs, routes) =>
        let old := (lookupAssoc cfgs iface.mac).getD emptyNI
        parseNetworkLoop servers rest
          (updateAssoc cfgs iface.mac
            ⟨mac, servers, old.ipAddresses ++ addrs, old.routes ++ routes⟩)

/-- `parseNetwork`: nameservers first, then every description in the
order private-then-public, then the map's values.  The Go map's
iteration order is unspecified; the model emits values in first-insertion
order of the MAC strings, one representative of the permitted orders. -/
def parseNetwork (metadata : Metadata) : Except String (List providers.NetworkInterface) :=
  match parseNameservers metadata.dns.nameservers with
  | .error e => .error e
  | .ok servers =>
    match parseNetworkLoop servers
        (metadata.interfaces.«private» ++ metadata.interfaces.public) [] with
    | .error e => .error e
    | .ok cfgs => .ok (cfgs.map (fun p => p.2))

end digitalocean

/-! ## Fetch environment

A provider run is determined by what the metadata service answers for
each key path (the part of the URL after the provider's fixed base).
`retry.Client.Get` classifies the HTTP outcome into: transport failure
after exhausted retries (non-nil error), 404-class absence (nil body,
nil error), or a 200-class body (non-nil body, possibly empty). -/

inductive FetchResult where
  | failed
  | absent
  | present (body : String)
  deriving DecidableEq, Repr

/-- One metadata service: the classified `retry.Client.Get` outcome per
key path. -/
def FetchEnv : Type := String → FetchResult

/-- The string a non-failed fetch turns into (`string(body)`: a nil or
empty body gives the empty string). -/
def bodyStr : FetchResult → String
  | .present b => b
  | _ => ""

/-! ## EC2 provider (`internal/providers/ec2`) -/

namespace ec2

/-- `ec2MetadataProvider.fetchString`: `(string(body), body != nil, err)`.
A nil body stringifies to `""`. -/
def fetchString (env : FetchEnv) (key : String) : Except String (String × Bool) :=
  match env key with
  | .failed => .error ("timed out while fetching " ++ key)
  | .absent => .ok ("", false)
  | .present body => .ok (body, true)

/-- `ec2MetadataProvider.fetchIP`: absent keys yield a nil IP without
error; present bodies must parse as an IP. -/
def fetchIP (env : FetchEnv) (key : String) : Except String (Option (List Nat)) :=
  match fetchString env key with
  | .error e => .error e
  | .ok (str, present) =>
    if ¬present then .ok none
    else
      match parseIPGo str.data with
      | some ip => .ok (some ip)
      | none => .error ("couldn't parse " ++ str ++ " as IP address")

/-- The `keyIDs` map build: `tokens := strings.SplitN(keyname, "=", 2)`,
two tokens required, then `keyIDs[tokens[1]] = tokens[0]` (keyed by
name, valued by index — later lines overwrite earlier ones). -/
def buildKeyIDs : List (List Char) → List (String × String) →
    Except String (List (String × String))
  | [], m => .ok m
  | keyname :: rest, m =>
    match splitFirst '=' keyname with
    | none => .error ("malformed public key: " ++ String.mk keyname)
    | some (idx, name) =>
      buildKeyIDs rest (updateAssoc m (String.mk name) (String.mk idx))

/-- The per-index fetch loop of `fetchSshKeys`: each surviving index's
`public-keys/<index>/openssh-key` body is appended, ignoring the
presence flag (an absent body appends the empty string). -/
def fetchEachKey (env : FetchEnv) : List (String × String) → List String →
    Except String (List String)
  | [], keys => .ok keys
  | (_, id) :: rest, keys =>
    match fetchString env ("public-keys/" ++ id ++ "/openssh-key") with
    | .error e => .error e
    | .ok (sshkey, _) => fetchEachKey env rest (keys ++ [sshkey])

/-- `ec2MetadataProvider.fetchSshKeys` (the Go map's unspecified
iteration order is modelled as first-insertion order of the names). -/
def fetchSshKeys (env : FetchEnv) : Except String (List String) :=
  match fetchString env "public-keys" with
  | .error e => .error ("error reading keys: " ++ e)
  | .ok (keydata, present) =>
    if ¬present then .ok []
    else
      match buildKeyIDs (scanLines keydata.data) [] with
      | .error e => .error e
      | .ok keyIDs => fetchEachKey env keyIDs []

/-- The `(index, name)` pair read off one listing line by
`strings.SplitN(keyname, "=", 2)` (meaningful when the line contains the
delimiter). -/
def keyPairs (lines : List (List Char)) : List (String × String) :=
  lines.map (fun l =>
    (String.mk ((splitFirst '=' l).getD ([], [])).1,
     String.mk ((splitFirst '=' l).getD ([], [])).2))

/-- The index the last listing line carrying `name` assigns to it:
what "deduplicated by name, last index wins" leaves in the map. -/
def lastIdxFor : List (String × String) → String → Option String
  | [], _ => none
  | p :: ps, name =>
    match lastIdxFor ps name with
    | some v => some v
    | none => if p.2 = name then some p.1 else none

/-- A metadata service with a three-line Format B listing in which the
name `a` appears under index 0 and again under index 2. -/
def envC8 : FetchEnv := fun k =>
  .present
    (if k = "public-keys" then "0=a\n1=b\n2=a"
     else if k = "public-keys/2/openssh-key" then "KEY2"
     else if k = "public-keys/1/openssh-key" then "KEY1"
     else "")

/-- The `instanceIdDoc` record (only the `region` field is consumed by
`FetchMetadata`; the remaining fields never flow anywhere). -/
structure InstanceIdDoc where
  region : String
  deriving DecidableEq, Repr

end ec2

/-! ## A restricted model of `encoding/json.Unmarshal`

`encoding/json` is standard-library code.  The instance-identity
document consumed by the EC2 provider is a flat JSON object whose fields
are strings, so the model parses exactly that shape (no escapes, no
nesting) and rejects everything else; in particular it rejects the empty
blob produced by an absent document key, as `json.Unmarshal` does. -/

/-- Skip JSON whitespace. -/
def skipWs : List Char → List Char
  | ' ' :: rest => skipWs rest
  | '\t' :: rest => skipWs rest
  | '\n' :: rest => skipWs rest
  | '\r' :: rest => skipWs rest
  | s => s

/-- Parse a JSON string literal without escapes: the chars up to the
closing quote, and the rest. -/
def parseJsonString : List Char → Option (List Char × List Char)
  | [] => none
  | c :: rest =>
    if c = '"' then some ([], rest)
    else if c = '\\' then none
    else (parseJsonString rest).map (fun p => (c :: p.1, p.2))

/-- Members of a flat string-valued JSON object, after the opening
brace.  Fuel decreases per member. -/
def parseJsonMembers : Nat → List Char → List (String × String) →
    Option (List (String × String) × List Char)
  | 0, _, _ => none
  | fuel + 1, s, acc =>
    match skipWs s with
    | '"' :: s1 =>
      match parseJsonString s1 with
      | none => none
      | some (key, s2) =>
        match skipWs s2 with
        | ':' :: s3 =>
          match skipWs s3 with
          | '"' :: s4 =>
            match parseJsonString s4 with
            | none => none
            | some (val, s5) =>
              let acc := acc ++ [(String.mk key, String.mk val)]
              match skipWs s5 with
              | ',' :: s6 => parseJsonMembers fuel s6 acc
              | c :: s6 => if c = Char.ofNat 125 then some (acc, s6) else none
              | [] => none
          | _ => none
        | _ => none
    | _ => none

/-- Parse a flat string-valued JSON object to its field list. -/
def parseFlatJsonObject (s : List Char) : Option (List (String × String)) :=
  match skipWs s with
  | c :: s1 =>
    if c = Char.ofNat 123 then
      match skipWs s1 with
      | d :: s2 =>
        if d = Char.ofNat 125 then
          if skipWs s2 = [] then some [] else none
        else
          match parseJsonMembers (s.length + 1) s1 [] with
          | none => none
          | some (fields, s3) => if skipWs s3 = [] then some fields else none
      | [] => none
    else none
  | [] => none

namespace ec2

/-- `json.Unmarshal` of the instance-identity document into
`instanceIdDoc` (restricted model, see above): absent fields default to
the zero value. -/
def jsonUnmarshalInstanceIdDoc (blob : String) : Except String InstanceIdDoc :=
  match parseFlatJsonObject blob.data with
  | none => .error "invalid instance-identity document"
  | some fields => .ok ⟨(lookupAssoc fields "region").getD ""⟩

/-- `ec2MetadataProvider.FetchMetadata`: scalar keys, the
instance-identity document and the SSH keys, assembled into one
`providers.Metadata`.  Every attribute key is written unconditionally,
whether or not the fetch reported the value as present. -/
def FetchMetadata (env : FetchEnv) : Except String providers.Metadata :=
  match fetchString env "meta-data/instance-id" with
  | .error e => .error e
  | .ok (instanceId, _) =>
    match fetchIP env "meta-data/public-ipv4" with
    | .error e => .error e
    | .ok publicIp =>
      match fetchIP env "meta-data/local-ipv4" with
      | .error e => .error e
      | .ok localIp =>
        match fetchString env "meta-data/hostname" with
        | .error e => .error e
        | .ok (hostname, _) =>
          match fetchString env "meta-data/placement/availability-zone" with
          | .error e => .error e
          | .ok (availabilityZone, _) =>
            match fetchString env "dynamic/instance-identity/document" with
            | .error e => .error e
            | .ok (docBlob, _) =>
              match jsonUnmarshalInstanceIdDoc docBlob with
              | .error e => .error e
              | .ok doc =>
                match fetchSshKeys env with
                | .error e => .error e
                | .ok sshKeys =>
                  .ok
                    { attributes :=
                        [("EC2_INSTANCE_ID", instanceId),
                         ("EC2_IPV4_LOCAL", providers.ipString localIp),
                         ("EC2_IPV4_PUBLIC", providers.ipString publicIp),
                         ("EC2_HOSTNAME", hostname),
                         ("EC2_AVAILABILITY_ZONE", availabilityZone),
                         ("EC2_REGION", doc.region)],
                      hostname := hostname,
                      sshKeys := sshKeys,
                      network := [] }

/-- A metadata service on which the instance id (and every other key
not listed) is absent, while the hostname, availability zone and
instance-identity document are present. -/
def envC3 : FetchEnv := fun k =>
  if k = "meta-data/hostname" then .present "myhost"
  else if k = "meta-data/placement/availability-zone" then .present "us-east-1a"
  else if k = "dynamic/instance-identity/document" then
    .present "\x7b\"region\":\"us-east-1\"\x7d"
  else .absent

end ec2

/-! ## GCE provider (`internal/providers/gce`) -/

namespace gce

/-- `gceMetadataProvider.fetchString`: Google's service answers 200 even
for missing resources, so presence is `len(body) > 0`, not
`body != nil`. -/
def fetchString (env : FetchEnv) (key : String) : Except String (String × Bool) :=
  match env key with
  | .failed => .error ("timed out while fetching " ++ key)
  | .absent => .ok ("", false)
  | .present body => .ok (body, body.length > 0)

/-- The parse loop of `gceMetadataProvider.fetchSshKeys`: split the blob
on newlines, skip empty lines, require a colon in each remaining line
and keep the text after the first colon. -/
def parseKeyLines : List (List Char) → List String → Except String (List String)
  | [], keys => .ok keys
  | key :: rest, keys =>
    if key = [] then parseKeyLines rest keys
    else
      match splitFirst ':' key with
      | none => .error ("malformed public key " ++ String.mk key)
      | some (_, body) => parseKeyLines rest (keys ++ [String.mk body])

/-- `gceMetadataProvider.fetchSshKeys` for one prefix. -/
def fetchSshKeys (env : FetchEnv) (keyPrefix : String) : Except String (List String) :=
  match fetchString env keyPrefix with
  | .error e => .error ("error reading keys: " ++ e)
  | .ok (keydata, present) =>
    if ¬present then .ok []
    else parseKeyLines (splitChar '\n' keydata.data) []

end gce

/-! ## OpenStack provider (the `openstackMetadata` source file) -/

namespace openstackMetadata

/-- `openstackMetadataProvider.fetchMetadata`:
`(string(body), body != nil, err)`. -/
def fetchMetadata (env : FetchEnv) (key : String) : Except String (String × Bool) :=
  match env key with
  | .failed => .error ("timed out while fetching " ++ key)
  | .absent => .ok ("", false)
  | .present body => .ok (body, true)

/-- `openstackMetadataProvider.fetchAndSet`: an absent or empty value
leaves the attribute map untouched and reports no error. -/
def fetchAndSet (env : FetchEnv) (key attrKey : String)
    (attributes : List (String × String)) : Except String (List (String × String)) :=
  match fetchMetadata env key with
  | .error e => .error e
  | .ok (val, ok) =>
    if ¬ok ∨ val = "" then .ok attributes
    else .ok (updateAssoc attributes attrKey val)

end openstackMetadata

/-! ## Retry client (`internal/retry`)

Modelled from the spec: the retry client's source file is not under
src/ (only its callers are).  Per the spec, `Get` attempts the HTTP GET;
a 2xx response returns the body as present, a 404-class (4xx) response
returns absent without error, and a network-level failure or 5xx-class
response is retried after a delay starting at `InitialBackoff`, doubling
each attempt and clamped to `MaxBackoff`, until `MaxAttempts` is
exhausted, when a retry-exhausted error carrying the last cause is
returned. -/

namespace retry

/-- One HTTP attempt's outcome. -/
inductive Response where
  | connError
  | status (code : Nat) (body : String)
  deriving DecidableEq, Repr

/-- Client configuration (durations in whole seconds for the model). -/
structure Client where
  initialBackoff : Nat
  maxBackoff : Nat
  maxAttempts : Nat
  deriving DecidableEq, Repr

/-- A finished `Get`: how many attempts ran, the sleeps between them,
and the classified result. -/
structure Trace where
  attempts : Nat
  delays : List Nat
  result : Except String (Option String)
  deriving Repr

/-- Modelled from the spec: the bounded-retry loop.  `remaining` is the
number of attempts still allowed, `backoff` the unclamped current
backoff. -/
def getLoop (responses : Nat → Response) (maxBackoff : Nat) :
    Nat → Nat → Nat → Trace
  | 0, _, _ => ⟨0, [], .error "retry exhausted"⟩
  | remaining + 1, attempt, backoff =>
    let cause :=
      match responses attempt with
      | .connError => some "connection error"
      | .status code _ =>
        if 500 ≤ code ∧ code < 600 then some ("status " ++ toString code) else none
    match responses attempt, cause with
    | .status code body, none =>
      if 200 ≤ code ∧ code < 300 then ⟨1, [], .ok (some body)⟩
      else ⟨1, [], .ok none⟩
    | _, _ =>
      let c := (cause.getD "connection error")
      if remaining = 0 then ⟨1, [], .error ("retry exhausted: " ++ c)⟩
      else
        let d := min backoff maxBackoff
        let t := getLoop responses maxBackoff remaining (attempt + 1) (backoff * 2)
        ⟨t.attempts + 1, d :: t.delays, t.result⟩

/-- Modelled from the spec: `retry.Client.Get` against a server whose
behaviour on the n-th attempt is `responses n`. -/
def get (c : Client) (responses : Nat → Response) : Trace :=
  getLoop responses c.maxBackoff c.maxAttempts 1 c.initialBackoff

end retry

/-! ## Helper lemmas -/

namespace digitalocean

theorem to4_length (ip : List Nat) : (to4 ip).length = 4 ∨ (to4 ip).length = 0 := by
  unfold to4
  split_ifs with h1 h2
  · exact Or.inl h1
  · exact Or.inl (by simp [List.length_drop, h2.1])
  · exact Or.inr rfl

theorem parseIPv4Address_mask (a : Address) (addr : List Nat × List Nat)
    (h : parseIPv4Address a = .ok addr) : ∃ m, addr.2 = to4 m := by
  unfold parseIPv4Address at h
  cases h1 : parseIPGo a.ipAddress.data with
  | none => rw [h1] at h; cases h
  | some ip =>
    rw [h1] at h
    cases h2 : parseIPGo a.netmask.data with
    | none => rw [h2] at h; cases h
    | some m => rw [h2] at h; cases h; exact ⟨m, rfl⟩

theorem parseRoute_dest (g : String) (dest : List Nat × List Nat)
    (rt : providers.NetworkRoute) (h : parseRoute g dest = .ok rt) :
    rt.destinationIP = dest.1 ∧ rt.destinationMask = dest.2 := by
  unfold parseRoute at h
  cases h1 : parseIPGo g.data with
  | none => rw [h1] at h; cases h
  | some gw => rw [h1] at h; cases h; exact ⟨rfl, rfl⟩

theorem parseNameservers_error_of_bad (l : List String)
    (h : ∃ s ∈ l, parseIPGo s.data = none) :
    ∃ e, parseNameservers l = .error e := by
  induction l with
  | nil => simp at h
  | cons x xs ih =>
    obtain ⟨s, hs, hbad⟩ := h
    unfold parseNameservers
    cases hx : parseIPGo x.data with
    | none => exact ⟨_, rfl⟩
    | some ip =>
      rcases List.mem_cons.mp hs with h | h
      · subst h; rw [hx] at hbad; cases hbad
      · obtain ⟨e, he⟩ := ih ⟨s, h, hbad⟩
        rw [he]
        exact ⟨e, rfl⟩

theorem parseNetworkLoop_error_of_badmac (servers : List (List Nat))
    (l : List Interface) (cfgs : List (String × providers.NetworkInterface))
    (h : ∃ i ∈ l, parseMACGo i.mac.data = none) :
    ∃ e, parseNetworkLoop servers l cfgs = .error e := by
  induction l generalizing cfgs with
  | nil => simp at h
  | cons d ds ih =>
    obtain ⟨i, hi, hbad⟩ := h
    unfold parseNetworkLoop
    cases hd : parseMACGo d.mac.data with
    | none => exact ⟨_, rfl⟩
    | some mac =>
      have hi2 : i ∈ ds := by
        rcases List.mem_cons.mp hi with h | h
        · subst h; rw [hd] at hbad; cases hbad
        · exact h
      cases hpi : parseInterface d (d.type == "public") with
      | error e => exact ⟨e, rfl⟩
      | ok p =>
        obtain ⟨addrs, routes⟩ := p
        dsimp only
        exact ih _ ⟨i, hi2, hbad⟩

end digitalocean

/-! ## Claims -/

namespace digitalocean

/-- C2.  A public interface description carrying an IPv4 address and a
gateway yields both the host route and an extra `0.0.0.0/0` default
route via the same gateway (for IPv6, an extra `::/0` default route); a
private description with the same data yields only the host route. -/
theorem claim_C2 :
    (∀ (a : Address) (mac ty : String) (addr : List Nat × List Nat)
        (rt : providers.NetworkRoute),
      parseIPv4Address a = .ok addr →
      parseRoute a.gateway addr = .ok rt →
      parseInterface ⟨some a, none, none, mac, ty⟩ true =
        .ok ([addr], [rt, ⟨defaultDestV4.1, defaultDestV4.2, rt.gateway⟩]) ∧
      parseInterface ⟨some a, none, none, mac, ty⟩ false = .ok ([addr], [rt])) ∧
    (∀ (a : Address) (mac ty : String) (addr : List Nat × List Nat)
        (rt : providers.NetworkRoute),
      parseIPv6Address a = .ok addr →
      parseRoute a.gateway addr = .ok rt →
      parseInterface ⟨none, some a, none, mac, ty⟩ true =
        .ok ([addr], [rt, ⟨defaultDestV6.1, defaultDestV6.2, rt.gateway⟩]) ∧
      parseInterface ⟨none, some a, none, mac, ty⟩ false = .ok ([addr], [rt])) := by
  constructor
  · intro a mac ty addr rt h1 h2
    constructor <;> simp [parseInterface, blockV4, blockV6, blockAnchor, h1, h2]
  · intro a mac ty addr rt h1 h2
    constructor <;> simp [parseInterface, blockV4, blockV6, blockAnchor, h1, h2]

/-- C2 witness at a concrete public/private IPv4 and IPv6 description. -/
theorem claim_C2_witness :
    parseInterface ⟨some ⟨"192.0.2.5", "255.255.255.0", 0, "192.0.2.1"⟩, none, none,
        "aa:bb:cc:dd:ee:ff", "public"⟩ true =
      .ok ([(ipv4Bytes 192 0 2 5, [255, 255, 255, 0])],
        [⟨ipv4Bytes 192 0 2 5, [255, 255, 255, 0], ipv4Bytes 192 0 2 1⟩,
         ⟨ipv4Bytes 0 0 0 0, ipv4Bytes 0 0 0 0, ipv4Bytes 192 0 2 1⟩]) ∧
    parseInterface ⟨some ⟨"192.0.2.5", "255.255.255.0", 0, "192.0.2.1"⟩, none, none,
        "aa:bb:cc:dd:ee:ff", "private"⟩ false =
      .ok ([(ipv4Bytes 192 0 2 5, [255, 255, 255, 0])],
        [⟨ipv4Bytes 192 0 2 5, [255, 255, 255, 0], ipv4Bytes 192 0 2 1⟩]) ∧
    parseInterface ⟨none, some ⟨"2001:db8::5", "", 64, "2001:db8::1"⟩, none,
        "aa:bb:cc:dd:ee:ff", "public"⟩ true =
      .ok ([([32, 1, 13, 184, 0, 0, 0, 0, 0, 0, 0, 0, 0, 0, 0, 5],
             [255, 255, 255, 255, 255, 255, 255, 255, 0, 0, 0, 0, 0, 0, 0, 0])],
        [⟨[32, 1, 13, 184, 0, 0, 0, 0, 0, 0, 0, 0, 0, 0, 0, 5],
          [255, 255, 255, 255, 255, 255, 255, 255, 0, 0, 0, 0, 0, 0, 0, 0],
          [32, 1, 13, 184, 0, 0, 0, 0, 0, 0, 0, 0, 0, 0, 0, 1]⟩,
         ⟨List.replicate 16 0, List.replicate 16 0,
          [32, 1, 13, 184, 0, 0, 0, 0, 0, 0, 0, 0, 0, 0, 0, 1]⟩]) ∧
    parseInterface ⟨none, some ⟨"2001:db8::5", "", 64, "2001:db8::1"⟩, none,
        "aa:bb:cc:dd:ee:ff", "private"⟩ false =
      .ok ([([32, 1, 13, 184, 0, 0, 0, 0, 0, 0, 0, 0, 0, 0, 0, 5],
             [255, 255, 255, 255, 255, 255, 255, 255, 0, 0, 0, 0, 0, 0, 0, 0])],
        [⟨[32, 1, 13, 184, 0, 0, 0, 0, 0, 0, 0, 0, 0, 0, 0, 5],
          [255, 255, 255, 255, 255, 255, 255, 255, 0, 0, 0, 0, 0, 0, 0, 0],
          [32, 1, 13, 184, 0, 0, 0, 0, 0, 0, 0, 0, 0, 0, 0, 1]⟩]) := by
  refine ⟨?_, ?_, ?_, ?_⟩
  · exact (claim_C2.1 ⟨"192.0.2.5", "255.255.255.0", 0, "192.0.2.1"⟩
      "aa:bb:cc:dd:ee:ff" "public" (ipv4Bytes 192 0 2 5, [255, 255, 255, 0])
      ⟨ipv4Bytes 192 0 2 5, [255, 255, 255, 0], ipv4Bytes 192 0 2 1⟩ rfl rfl).1
  · exact (claim_C2.1 ⟨"192.0.2.5", "255.255.255.0", 0, "192.0.2.1"⟩
      "aa:bb:cc:dd:ee:ff" "private" (ipv4Bytes 192 0 2 5, [255, 255, 255, 0])
      ⟨ipv4Bytes 192 0 2 5, [255, 255, 255, 0], ipv4Bytes 192 0 2 1⟩ rfl rfl).2
  · exact (claim_C2.2 ⟨"2001:db8::5", "", 64, "2001:db8::1"⟩
      "aa:bb:cc:dd:ee:ff" "public"
      ([32, 1, 13, 184, 0, 0, 0, 0, 0, 0, 0, 0, 0, 0, 0, 5],
       [255, 255, 255, 255, 255, 255, 255, 255, 0, 0, 0, 0, 0, 0, 0, 0])
      ⟨[32, 1, 13, 184, 0, 0, 0, 0, 0, 0, 0, 0, 0, 0, 0, 5],
        [255, 255, 255, 255, 255, 255, 255, 255, 0, 0, 0, 0, 0, 0, 0, 0],
        [32, 1, 13, 184, 0, 0, 0, 0, 0, 0, 0, 0, 0, 0, 0, 1]⟩ rfl rfl).1
  · exact (claim_C2.2 ⟨"2001:db8::5", "", 64, "2001:db8::1"⟩
      "aa:bb:cc:dd:ee:ff" "private"
      ([32, 1, 13, 184, 0, 0, 0, 0, 0, 0, 0, 0, 0, 0, 0, 5],
       [255, 255, 255, 255, 255, 255, 255, 255, 0, 0, 0, 0, 0, 0, 0, 0])
      ⟨[32, 1, 13, 184, 0, 0, 0, 0, 0, 0, 0, 0, 0, 0, 0, 5],
        [255, 255, 255, 255, 255, 255, 255, 255, 0, 0, 0, 0, 0, 0, 0, 0],
        [32, 1, 13, 184, 0, 0, 0, 0, 0, 0, 0, 0, 0, 0, 0, 1]⟩ rfl rfl).2

/-- C4.  An anchor IPv4 address contributes the route to its own
network via its gateway, and that route is never a default route; a
description carrying only an anchor address produces exactly that one
route whether the description is public or private. -/
theorem claim_C4 :
    (∀ (iface : Interface) (pub : Bool) (a : Address)
        (addr : List Nat × List Nat) (rt : providers.NetworkRoute)
        (res : List (List Nat × List Nat) × List providers.NetworkRoute),
      iface.anchorIPv4 = some a →
      parseIPv4Address a = .ok addr →
      parseRoute a.gateway addr = .ok rt →
      parseInterface iface pub = .ok res →
      rt ∈ res.2 ∧ ¬ isDefaultRoute rt) ∧
    (∀ (a : Address) (mac ty : String) (pub : Bool)
        (addr : List Nat × List Nat) (rt : providers.NetworkRoute),
      parseIPv4Address a = .ok addr →
      parseRoute a.gateway addr = .ok rt →
      parseInterface ⟨none, none, some a, mac, ty⟩ pub = .ok ([addr], [rt])) := by
  constructor
  · intro iface pub a addr rt res ha h1 h2 hres
    have hnd : ¬ isDefaultRoute rt := by
      obtain ⟨m, hm⟩ := parseIPv4Address_mask a addr h1
      obtain ⟨_, hdm⟩ := parseRoute_dest a.gateway addr rt h2
      intro hd
      have hlen : rt.destinationMask.length = 4 ∨ rt.destinationMask.length = 0 := by
        rw [hdm, hm]; exact to4_length m
      rcases hd with ⟨_, hmask⟩ | ⟨_, hmask⟩ <;> rw [hmask] at hlen <;>
        simp [defaultDestV4, defaultDestV6, ipv4Bytes, v4InV6Prefix] at hlen
    refine ⟨?_, hnd⟩
    unfold parseInterface at hres
    cases hb4 : blockV4 iface.ipv4 pub with
    | error e => rw [hb4] at hres; cases hres
    | ok p4 =>
      rw [hb4] at hres
      cases hb6 : blockV6 iface.ipv6 pub with
      | error e => rw [hb6] at hres; cases hres
      | ok p6 =>
        rw [hb6] at hres
        have hba : blockAnchor iface.anchorIPv4 = .ok ([addr], [rt]) := by
          simp [blockAnchor, ha, h1, h2]
        rw [hba] at hres
        cases hres
        simp
  · intro a mac ty pub addr rt h1 h2
    simp [parseInterface, blockV4, blockV6, blockAnchor, h1, h2]

/-- C4 witness at a concrete anchor-only description, public and
private. -/
theorem claim_C4_witness :
    (⟨ipv4Bytes 10 17 0 5, [255, 255, 0, 0], ipv4Bytes 10 17 0 1⟩ ∈
        ([⟨ipv4Bytes 10 17 0 5, [255, 255, 0, 0], ipv4Bytes 10 17 0 1⟩] :
          List providers.NetworkRoute) ∧
      ¬ isDefaultRoute ⟨ipv4Bytes 10 17 0 5, [255, 255, 0, 0], ipv4Bytes 10 17 0 1⟩) ∧
    parseInterface ⟨none, none, some ⟨"10.17.0.5", "255.255.0.0", 0, "10.17.0.1"⟩,
        "aa:bb:cc:dd:ee:ff", "public"⟩ true =
      .ok ([(ipv4Bytes 10 17 0 5, [255, 255, 0, 0])],
        [⟨ipv4Bytes 10 17 0 5, [255, 255, 0, 0], ipv4Bytes 10 17 0 1⟩]) ∧
    parseInterface ⟨none, none, some ⟨"10.17.0.5", "255.255.0.0", 0, "10.17.0.1"⟩,
        "aa:bb:cc:dd:ee:ff", "private"⟩ false =
      .ok ([(ipv4Bytes 10 17 0 5, [255, 255, 0, 0])],
        [⟨ipv4Bytes 10 17 0 5, [255, 255, 0, 0], ipv4Bytes 10 17 0 1⟩]) := by
  have h2 := claim_C4.2 ⟨"10.17.0.5", "255.255.0.0", 0, "10.17.0.1"⟩
    "aa:bb:cc:dd:ee:ff" "public" true
    (ipv4Bytes 10 17 0 5, [255, 255, 0, 0])
    ⟨ipv4Bytes 10 17 0 5, [255, 255, 0, 0], ipv4Bytes 10 17 0 1⟩ rfl rfl
  have h3 := claim_C4.2 ⟨"10.17.0.5", "255.255.0.0", 0, "10.17.0.1"⟩
    "aa:bb:cc:dd:ee:ff" "private" false
    (ipv4Bytes 10 17 0 5, [255, 255, 0, 0])
    ⟨ipv4Bytes 10 17 0 5, [255, 255, 0, 0], ipv4Bytes 10 17 0 1⟩ rfl rfl
  exact ⟨claim_C4.1 ⟨none, none, some ⟨"10.17.0.5", "255.255.0.0", 0, "10.17.0.1"⟩,
      "aa:bb:cc:dd:ee:ff", "public"⟩ true _ _ _ _ rfl rfl rfl h2, h2, h3⟩

/-- C1 counterexample.  Two descriptions whose MAC strings parse to the
same hardware address (they differ only in letter case) do not merge:
`parseNetwork` keys its accumulator on the raw string and emits two
`NetworkInterface` values carrying the same hardware address. -/
theorem claim_C1_counterexample :
    parseMACGo ("aa:bb:cc:dd:ee:ff" : String).data =
      parseMACGo ("AA:BB:CC:DD:EE:FF" : String).data ∧
    parseNetwork ⟨"h", ⟨[⟨none, none, none, "AA:BB:CC:DD:EE:FF", "public"⟩],
        [⟨none, none, none, "aa:bb:cc:dd:ee:ff", "private"⟩]⟩, [], "r", ⟨[]⟩⟩ =
      .ok [⟨[0xAA, 0xBB, 0xCC, 0xDD, 0xEE, 0xFF], [], [], []⟩,
           ⟨[0xAA, 0xBB, 0xCC, 0xDD, 0xEE, 0xFF], [], [], []⟩] :=
  ⟨rfl, rfl⟩

/-- C1 (amended).  Two interface descriptions carrying the same
hardware-address string — one private, one public — produce exactly one
`NetworkInterface`, whose address and route lists are the
concatenations, private description first, with no deduplication. -/
theorem claim_C1 (hn rg : String) (pk servers : List String)
    (ns : List (List Nat)) (d1 d2 : Interface) (s : String) (mac : List Nat)
    (a1 a2 : List (List Nat × List Nat)) (r1 r2 : List providers.NetworkRoute)
    (hs : parseNameservers servers = .ok ns)
    (hm1 : d1.mac = s) (hm2 : d2.mac = s)
    (hmac : parseMACGo s.data = some mac)
    (hp1 : parseInterface d1 (d1.type == "public") = .ok (a1, r1))
    (hp2 : parseInterface d2 (d2.type == "public") = .ok (a2, r2)) :
    parseNetwork ⟨hn, ⟨[d2], [d1]⟩, pk, rg, ⟨servers⟩⟩ =
      .ok [⟨mac, ns, a1 ++ a2, r1 ++ r2⟩] := by
  simp [parseNetwork, parseNetworkLoop, updateAssoc, lookupAssoc, emptyNI,
    hs, hm1, hm2, hmac, hp1, hp2]

/-- C1 witness: a private and a public description sharing the MAC
string `aa:bb:cc:dd:ee:ff`. -/
theorem claim_C1_witness :
    parseNetwork ⟨"host", ⟨[⟨some ⟨"203.0.113.2", "255.255.255.0", 0, "203.0.113.1"⟩,
        none, none, "aa:bb:cc:dd:ee:ff", "public"⟩],
        [⟨some ⟨"10.0.0.2", "255.255.255.0", 0, "10.0.0.1"⟩,
          none, none, "aa:bb:cc:dd:ee:ff", "private"⟩]⟩, [], "reg", ⟨["8.8.8.8"]⟩⟩ =
      .ok [⟨[0xAA, 0xBB, 0xCC, 0xDD, 0xEE, 0xFF], [ipv4Bytes 8 8 8 8],
        [(ipv4Bytes 10 0 0 2, [255, 255, 255, 0])] ++
          [(ipv4Bytes 203 0 113 2, [255, 255, 255, 0])],
        [⟨ipv4Bytes 10 0 0 2, [255, 255, 255, 0], ipv4Bytes 10 0 0 1⟩] ++
          [⟨ipv4Bytes 203 0 113 2, [255, 255, 255, 0], ipv4Bytes 203 0 113 1⟩,
           ⟨ipv4Bytes 0 0 0 0, ipv4Bytes 0 0 0 0, ipv4Bytes 203 0 113 1⟩]⟩] :=
  claim_C1 "host" "reg" [] ["8.8.8.8"] [ipv4Bytes 8 8 8 8]
    ⟨some ⟨"10.0.0.2", "255.255.255.0", 0, "10.0.0.1"⟩,
      none, none, "aa:bb:cc:dd:ee:ff", "private"⟩
    ⟨some ⟨"203.0.113.2", "255.255.255.0", 0, "203.0.113.1"⟩,
      none, none, "aa:bb:cc:dd:ee:ff", "public"⟩
    "aa:bb:cc:dd:ee:ff" [0xAA, 0xBB, 0xCC, 0xDD, 0xEE, 0xFF]
    [(ipv4Bytes 10 0 0 2, [255, 255, 255, 0])]
    [(ipv4Bytes 203 0 113 2, [255, 255, 255, 0])]
    [⟨ipv4Bytes 10 0 0 2, [255, 255, 255, 0], ipv4Bytes 10 0 0 1⟩]
    [⟨ipv4Bytes 203 0 113 2, [255, 255, 255, 0], ipv4Bytes 203 0 113 1⟩,
     ⟨ipv4Bytes 0 0 0 0, ipv4Bytes 0 0 0 0, ipv4Bytes 203 0 113 1⟩]
    rfl rfl rfl rfl rfl rfl

/-- C5.  Any unparseable nameserver string, and any unparseable MAC
string among the interface descriptions, makes the whole synthesis
return an error — no partial interface set. -/
theorem claim_C5 (m : Metadata)
    (h : (∃ s ∈ m.dns.nameservers, parseIPGo s.data = none) ∨
      (∃ i ∈ m.interfaces.«private» ++ m.interfaces.public,
        parseMACGo i.mac.data = none)) :
    ∃ e, parseNetwork m = .error e := by
  unfold parseNetwork
  rcases h with h | h
  · obtain ⟨e, he⟩ := parseNameservers_error_of_bad _ h
    rw [he]
    exact ⟨e, rfl⟩
  · cases hs : parseNameservers m.dns.nameservers with
    | error e => exact ⟨e, rfl⟩
    | ok ns =>
      obtain ⟨e, he⟩ := parseNetworkLoop_error_of_badmac ns _ [] h
      dsimp only
      rw [he]
      exact ⟨e, rfl⟩

/-- C5 witness: one bad nameserver and, separately, one bad MAC each
force an error result. -/
theorem claim_C5_witness :
    (parseNetwork ⟨"h", ⟨[], []⟩, [], "r", ⟨["notanip"]⟩⟩).toOption = none ∧
    (parseNetwork ⟨"h", ⟨[], [⟨none, none, none, "junk", "private"⟩]⟩,
      [], "r", ⟨[]⟩⟩).toOption = none := by
  constructor
  · obtain ⟨e, he⟩ := claim_C5 ⟨"h", ⟨[], []⟩, [], "r", ⟨["notanip"]⟩⟩
      (Or.inl ⟨"notanip", by simp, rfl⟩)
    rw [he]
    rfl
  · obtain ⟨e, he⟩ := claim_C5 ⟨"h", ⟨[], [⟨none, none, none, "junk", "private"⟩]⟩,
      [], "r", ⟨[]⟩⟩ (Or.inr ⟨⟨none, none, none, "junk", "private"⟩, by simp, rfl⟩)
    rw [he]
    rfl

end digitalocean

/-- C9.  With `InitialBackoff=1s, MaxBackoff=5s, MaxAttempts=10` and a
server that always fails at the connection level, the retry client makes
exactly 10 attempts, sleeping 1,2,4,5,5,5,5,5,5 seconds between them,
and then returns the retry-exhausted error carrying the last cause. -/
theorem claim_C9 :
    retry.get ⟨1, 5, 10⟩ (fun _ => .connError) =
      ⟨10, [1, 2, 4, 5, 5, 5, 5, 5, 5], .error "retry exhausted: connection error"⟩ :=
  rfl

/-- C10.  When a Format B key body fetch comes back absent, the EC2
provider appends the empty string to the key list (the presence flag is
discarded), without error and without omitting the entry. -/
theorem claim_C10 (env : FetchEnv)
    (h1 : env "public-keys" = .present "0=test")
    (h2 : env "public-keys/0/openssh-key" = .absent) :
    ec2.fetchSshKeys env = .ok [""] := by
  have e1 : ec2.fetchString env "public-keys" = .ok ("0=test", true) := by
    unfold ec2.fetchString; rw [h1]
  have e2 : ec2.fetchString env "public-keys/0/openssh-key" = .ok ("", false) := by
    unfold ec2.fetchString; rw [h2]
  have e3 : ec2.buildKeyIDs (scanLines ("0=test" : String).data) [] =
      .ok [("test", "0")] := by rfl
  unfold ec2.fetchSshKeys
  rw [e1]
  simp [e3, ec2.fetchEachKey, e2]

/-- C10 witness: a concrete environment whose single listed key body is
absent. -/
theorem claim_C10_witness :
    ec2.fetchSshKeys
      (fun k =>
        if k = "public-keys" then .present "0=test"
        else if k = "public-keys/0/openssh-key" then .absent
        else .failed) = .ok [""] :=
  claim_C10 _ rfl rfl

theorem parseKeyLines_ok (ls : List (List Char)) (acc : List String)
    (h : ∀ l ∈ ls, l ≠ [] → (splitFirst ':' l).isSome) :
    gce.parseKeyLines ls acc =
      .ok (acc ++ (ls.filter (fun l => ¬ l = [])).map
        (fun l => String.mk ((splitFirst ':' l).getD ([], [])).2)) := by
  induction ls generalizing acc with
  | nil => simp [gce.parseKeyLines]
  | cons l ls ih =>
    unfold gce.parseKeyLines
    by_cases hl : l = []
    · subst hl
      rw [if_pos rfl, ih acc (fun x hx hx2 => h x (List.mem_cons_of_mem _ hx) hx2)]
      simp
    · rw [if_neg hl]
      have hs := h l (List.mem_cons_self _ _) hl
      cases hsf : splitFirst ':' l with
      | none => rw [hsf] at hs; simp at hs
      | some p =>
        obtain ⟨pre, body⟩ := p
        dsimp only
        rw [ih (acc ++ [String.mk body])
          (fun x hx hx2 => h x (List.mem_cons_of_mem _ hx) hx2)]
        simp [hl, hsf]

/-- C7.  Format C listings: for each non-empty line in order, the text
after the first colon is returned. -/
theorem claim_C7 (env : FetchEnv) (p keydata : String)
    (hp : env p = .present keydata)
    (h : ∀ l ∈ splitChar '\n' keydata.data, l ≠ [] → (splitFirst ':' l).isSome) :
    gce.fetchSshKeys env p =
      .ok (((splitChar '\n' keydata.data).filter (fun l => ¬ l = [])).map
        (fun l => String.mk ((splitFirst ':' l).getD ([], [])).2)) := by
  have e1 : gce.fetchString env p = .ok (keydata, keydata.length > 0) := by
    unfold gce.fetchString; rw [hp]
  unfold gce.fetchSshKeys
  rw [e1]
  by_cases hk : keydata.length > 0
  · dsimp only
    rw [if_neg (not_not_intro (decide_eq_true hk))]
    simpa using parseKeyLines_ok _ [] h
  · have hlen : keydata.length = 0 := Nat.eq_zero_of_not_pos hk
    have hd : keydata.data = [] := List.length_eq_zero.mp hlen
    dsimp only
    rw [hlen, if_pos (by decide), hd]
    rfl

/-- C7 witness at the spec's example listing. -/
theorem claim_C7_witness :
    gce.fetchSshKeys (fun _ => .present "ssh-rsa:AAAA\nssh-ed25519:BBBB")
      "instance/attributes/ssh-keys" = .ok ["AAAA", "BBBB"] := by
  rw [claim_C7 (fun _ => .present "ssh-rsa:AAAA\nssh-ed25519:BBBB")
    "instance/attributes/ssh-keys" "ssh-rsa:AAAA\nssh-ed25519:BBBB" rfl (by decide)]
  rfl

theorem parseKeyLines_error_of_bad (ls : List (List Char)) (acc : List String)
    (h : ∃ l ∈ ls, l ≠ [] ∧ splitFirst ':' l = none) :
    ∃ e, gce.parseKeyLines ls acc = .error e := by
  induction ls generalizing acc with
  | nil => simp at h
  | cons l ls ih =>
    obtain ⟨x, hx, hx2, hx3⟩ := h
    unfold gce.parseKeyLines
    by_cases hl : l = []
    · rw [if_pos hl]
      have hx4 : x ∈ ls := by
        rcases List.mem_cons.mp hx with h | h
        · subst h; exact absurd hl hx2
        · exact h
      exact ih acc ⟨x, hx4, hx2, hx3⟩
    · rw [if_neg hl]
      cases hsf : splitFirst ':' l with
      | none => exact ⟨_, rfl⟩
      | some p =>
        have hx4 : x ∈ ls := by
          rcases List.mem_cons.mp hx with h | h
          · subst h; rw [hsf] at hx3; cases hx3
          · exact h
        exact ih _ ⟨x, hx4, hx2, hx3⟩

theorem buildKeyIDs_error_of_bad (ls : List (List Char)) (m : List (String × String))
    (h : ∃ l ∈ ls, splitFirst '=' l = none) :
    ∃ e, ec2.buildKeyIDs ls m = .error e := by
  induction ls generalizing m with
  | nil => simp at h
  | cons l ls ih =>
    obtain ⟨x, hx, hx2⟩ := h
    unfold ec2.buildKeyIDs
    cases hsf : splitFirst '=' l with
    | none => exact ⟨_, rfl⟩
    | some p =>
      have hx3 : x ∈ ls := by
        rcases List.mem_cons.mp hx with h | h
        · subst h; rw [hsf] at hx2; cases hx2
        · exact h
      exact ih _ ⟨x, hx3, hx2⟩

/-- C6 counterexample.  A trailing newline makes the GCE listing end in
an empty line, which lacks the colon delimiter; the normalizer silently
skips it instead of failing. -/
theorem claim_C6_counterexample :
    splitChar '\n' ("ssh-rsa:AAAA\n" : String).data =
      [("ssh-rsa:AAAA" : String).data, []] ∧
    splitFirst ':' ([] : List Char) = none ∧
    gce.fetchSshKeys (fun _ => .present "ssh-rsa:AAAA\n")
      "instance/attributes/ssh-keys" = .ok ["AAAA"] :=
  ⟨rfl, rfl, rfl⟩

/-- C6 (amended).  A non-empty line lacking the delimiter is a fatal
parse error in the GCE normalizer (which skips empty lines); in the EC2
normalizer any scanner line lacking the delimiter, the empty line
included, is fatal; an absent or empty raw listing yields an empty key
sequence without error in both. -/
theorem claim_C6 :
    (∀ (env : FetchEnv) (p keydata : String), env p = .present keydata →
      (∃ l ∈ splitChar '\n' keydata.data, l ≠ [] ∧ splitFirst ':' l = none) →
      ∃ e, gce.fetchSshKeys env p = .error e) ∧
    (∀ (env : FetchEnv) (keydata : String), env "public-keys" = .present keydata →
      (∃ l ∈ scanLines keydata.data, splitFirst '=' l = none) →
      ∃ e, ec2.fetchSshKeys env = .error e) ∧
    (∀ (env : FetchEnv) (p : String), env p = .absent ∨ env p = .present "" →
      gce.fetchSshKeys env p = .ok []) ∧
    (∀ env : FetchEnv, env "public-keys" = .absent ∨ env "public-keys" = .present "" →
      ec2.fetchSshKeys env = .ok []) := by
  refine ⟨?_, ?_, ?_, ?_⟩
  · intro env p keydata hp h
    have e1 : gce.fetchString env p = .ok (keydata, keydata.length > 0) := by
      unfold gce.fetchString; rw [hp]
    have hk : keydata.length > 0 := by
      obtain ⟨l, hl, hl2, _⟩ := h
      rcases Nat.eq_zero_or_pos keydata.length with h0 | h0
      · exfalso
        have hd : keydata.data = [] := List.length_eq_zero.mp h0
        rw [hd] at hl
        simp [splitChar] at hl
        exact hl2 hl
      · exact h0
    unfold gce.fetchSshKeys
    rw [e1]
    dsimp only
    rw [if_neg (not_not_intro (decide_eq_true hk))]
    exact parseKeyLines_error_of_bad _ [] h
  · intro env keydata hp h
    have e1 : ec2.fetchString env "public-keys" = .ok (keydata, true) := by
      unfold ec2.fetchString; rw [hp]
    unfold ec2.fetchSshKeys
    rw [e1]
    dsimp only
    rw [if_neg (not_not_intro rfl)]
    obtain ⟨e, he⟩ := buildKeyIDs_error_of_bad (scanLines keydata.data) [] h
    rw [he]
    exact ⟨e, rfl⟩
  · intro env p hp
    rcases hp with hp | hp <;>
      · unfold gce.fetchSshKeys gce.fetchString
        rw [hp]
        rfl
  · intro env hp
    rcases hp with hp | hp <;>
      · unfold ec2.fetchSshKeys ec2.fetchString
        rw [hp]
        rfl

theorem buildKeyIDs_ok (lines : List (List Char)) (m : List (String × String))
    (h : ∀ l ∈ lines, (splitFirst '=' l).isSome) :
    ec2.buildKeyIDs lines m = .ok (updFold m (ec2.keyPairs lines)) := by
  induction lines generalizing m with
  | nil => rfl
  | cons l ls ih =>
    have hs := h l (List.mem_cons_self _ _)
    cases hsf : splitFirst '=' l with
    | none => rw [hsf] at hs; simp at hs
    | some p =>
      obtain ⟨idx, name⟩ := p
      unfold ec2.buildKeyIDs
      rw [hsf]
      dsimp only
      rw [ih (updateAssoc m (String.mk name) (String.mk idx))
        (fun x hx => h x (List.mem_cons_of_mem _ hx))]
      simp [ec2.keyPairs, updFold, hsf]

theorem lookup_updateAssoc (m : List (String × String)) (k v k' : String) :
    lookupAssoc (updateAssoc m k v) k' = if k' = k then some v else lookupAssoc m k' := by
  induction m with
  | nil =>
    simp only [updateAssoc, lookupAssoc]
    by_cases h : k = k'
    · rw [if_pos h, if_pos h.symm]
    · rw [if_neg h, if_neg (fun h2 : k' = k => h h2.symm)]
  | cons q m ih =>
    obtain ⟨k0, v0⟩ := q
    simp only [updateAssoc]
    by_cases h0 : k0 = k
    · rw [if_pos h0]
      simp only [lookupAssoc]
      by_cases h : k = k'
      · rw [if_pos h, if_pos h.symm]
      · rw [if_neg h, if_neg (fun h2 : k' = k => h h2.symm),
          if_neg (fun h2 : k0 = k' => h (h0 ▸ h2))]
    · rw [if_neg h0]
      simp only [lookupAssoc]
      by_cases h : k0 = k'
      · rw [if_pos h, if_neg (fun h2 : k' = k => h0 (h.trans h2)), if_pos h]
      · rw [if_neg h, ih]
        by_cases h2 : k' = k
        · rw [if_pos h2, if_pos h2]
        · rw [if_neg h2, if_neg h2, if_neg h]

theorem lookup_updFold (ps : List (String × String)) (m : List (String × String))
    (name : String) :
    lookupAssoc (updFold m ps) name =
      match ec2.lastIdxFor ps name with
      | some v => some v
      | none => lookupAssoc m name := by
  induction ps generalizing m with
  | nil => rfl
  | cons p ps ih =>
    have step : updFold m (p :: ps) = updFold (updateAssoc m p.2 p.1) ps := rfl
    rw [step, ih]
    cases hlast : ec2.lastIdxFor ps name with
    | some v => simp [ec2.lastIdxFor, hlast]
    | none =>
      by_cases hp : p.2 = name
      · simp [ec2.lastIdxFor, hlast, hp, lookup_updateAssoc]
      · simp only [ec2.lastIdxFor, hlast, lookup_updateAssoc, if_neg hp,
          if_neg (fun h2 : name = p.2 => hp h2.symm)]

theorem fetchEachKey_ok (env : FetchEnv) (ids : List (String × String))
    (acc : List String)
    (h : ∀ q ∈ ids, env ("public-keys/" ++ q.2 ++ "/openssh-key") ≠ .failed) :
    ec2.fetchEachKey env ids acc =
      .ok (acc ++ ids.map
        (fun q => bodyStr (env ("public-keys/" ++ q.2 ++ "/openssh-key")))) := by
  induction ids generalizing acc with
  | nil => simp [ec2.fetchEachKey]
  | cons q ids ih =>
    obtain ⟨name, id⟩ := q
    unfold ec2.fetchEachKey ec2.fetchString
    have hq := h (name, id) (List.mem_cons_self _ _)
    cases henv : env ("public-keys/" ++ id ++ "/openssh-key") with
    | failed => exact absurd henv hq
    | absent =>
      dsimp only
      rw [ih (acc ++ [""]) (fun x hx => h x (List.mem_cons_of_mem _ hx))]
      simp [bodyStr, henv]
    | present b =>
      dsimp only
      rw [ih (acc ++ [b]) (fun x hx => h x (List.mem_cons_of_mem _ hx))]
      simp [bodyStr, henv]

/-- C8.  A Format B listing is deduplicated by name with the last
listed index winning per name, and exactly the surviving indices' key
bodies are fetched (the model iterates the survivors in first-insertion
order, one representative of the Go map's unspecified order). -/
theorem claim_C8 (env : FetchEnv) (keydata : String)
    (hp : env "public-keys" = .present keydata)
    (hlines : ∀ l ∈ scanLines keydata.data, (splitFirst '=' l).isSome)
    (hfetch : ∀ idx : String, env ("public-keys/" ++ idx ++ "/openssh-key") ≠ .failed) :
    (∀ name, lookupAssoc (updFold [] (ec2.keyPairs (scanLines keydata.data))) name =
      ec2.lastIdxFor (ec2.keyPairs (scanLines keydata.data)) name) ∧
    ec2.fetchSshKeys env =
      .ok ((updFold [] (ec2.keyPairs (scanLines keydata.data))).map
        (fun q => bodyStr (env ("public-keys/" ++ q.2 ++ "/openssh-key")))) := by
  constructor
  · intro name
    rw [lookup_updFold]
    cases hlast : ec2.lastIdxFor (ec2.keyPairs (scanLines keydata.data)) name <;> rfl
  · have e1 : ec2.fetchString env "public-keys" = .ok (keydata, true) := by
      unfold ec2.fetchString; rw [hp]
    unfold ec2.fetchSshKeys
    rw [e1]
    dsimp only
    rw [if_neg (not_not_intro rfl)]
    rw [buildKeyIDs_ok _ [] hlines]
    dsimp only
    simpa using fetchEachKey_ok env _ [] (fun q _ => hfetch q.2)

/-- C8 witness: in the listing `0=a, 1=b, 2=a` the name `a` keeps index
2 (the last), and exactly the two surviving bodies are fetched. -/
theorem claim_C8_witness :
    lookupAssoc
      (updFold [] (ec2.keyPairs (scanLines ("0=a\n1=b\n2=a" : String).data))) "a" =
      some "2" ∧
    ec2.fetchSshKeys ec2.envC8 = .ok ["KEY2", "KEY1"] := by
  have h := claim_C8 ec2.envC8 "0=a\n1=b\n2=a" rfl (by decide)
    (fun idx h2 => FetchResult.noConfusion h2)
  constructor
  · rw [h.1 "a"]
    rfl
  · rw [h.2]
    rfl

/-- C3 counterexample.  With the instance id absent (404), the EC2
provider still succeeds but writes an `("EC2_INSTANCE_ID", "")`
empty-string entry into Attributes instead of omitting the key. -/
theorem claim_C3_counterexample :
    ec2.envC3 "meta-data/instance-id" = FetchResult.absent ∧
    ec2.FetchMetadata ec2.envC3 =
      .ok ⟨[("EC2_INSTANCE_ID", ""), ("EC2_IPV4_LOCAL", ""), ("EC2_IPV4_PUBLIC", ""),
            ("EC2_HOSTNAME", "myhost"), ("EC2_AVAILABILITY_ZONE", "us-east-1a"),
            ("EC2_REGION", "us-east-1")], "myhost", [], []⟩ :=
  ⟨rfl, rfl⟩

/-- C3 (amended).  The OpenStack provider omits an absent (or empty)
scalar key from Attributes without error; the EC2 provider instead
inserts an empty-string entry for an absent scalar key (the fetch still
does not fail on account of that absence). -/
theorem claim_C3 :
    (∀ (env : FetchEnv) (key attrKey : String) (attrs : List (String × String)),
      env key = .absent →
      openstackMetadata.fetchAndSet env key attrKey attrs = .ok attrs) ∧
    (∀ env : FetchEnv, env "meta-data/instance-id" = .absent →
      ∀ md, ec2.FetchMetadata env = .ok md →
        lookupAssoc md.attributes "EC2_INSTANCE_ID" = some "") := by
  constructor
  · intro env key attrKey attrs h
    unfold openstackMetadata.fetchAndSet openstackMetadata.fetchMetadata
    rw [h]
    rfl
  · intro env h md hmd
    have e1 : ec2.fetchString env "meta-data/instance-id" = .ok ("", false) := by
      unfold ec2.fetchString; rw [h]
    unfold ec2.FetchMetadata at hmd
    rw [e1] at hmd
    dsimp only at hmd
    split at hmd
    · exact Except.noConfusion hmd
    · split at hmd
      · exact Except.noConfusion hmd
      · split at hmd
        · exact Except.noConfusion hmd
        · split at hmd
          · exact Except.noConfusion hmd
          · split at hmd
            · exact Except.noConfusion hmd
            · split at hmd
              · exact Except.noConfusion hmd
              · split at hmd
                · exact Except.noConfusion hmd
                · injection hmd with h2
                  subst h2
                  rfl

/-- C3 witness: the OpenStack omission at a concrete absent key, and
the EC2 empty-string entry produced by `envC3`. -/
theorem claim_C3_witness :
    openstackMetadata.fetchAndSet (fun _ => FetchResult.absent)
      "local-ipv4" "OPENSTACK_IPV4_LOCAL" [] = .ok [] ∧
    lookupAssoc
      (⟨[("EC2_INSTANCE_ID", ""), ("EC2_IPV4_LOCAL", ""), ("EC2_IPV4_PUBLIC", ""),
         ("EC2_HOSTNAME", "myhost"), ("EC2_AVAILABILITY_ZONE", "us-east-1a"),
         ("EC2_REGION", "us-east-1")], "myhost", [], []⟩ :
        providers.Metadata).attributes "EC2_INSTANCE_ID" = some "" :=
  ⟨claim_C3.1 (fun _ => FetchResult.absent) "local-ipv4" "OPENSTACK_IPV4_LOCAL" [] rfl,
   claim_C3.2 ec2.envC3 rfl _ rfl⟩

/-- C6 witness: a delimiter-less non-empty line errors in both
normalizers; absent and empty listings yield empty sequences. -/
theorem claim_C6_witness :
    (gce.fetchSshKeys (fun _ => .present "nodelim") "p").toOption = none ∧
    (ec2.fetchSshKeys (fun k =>
      if k = "public-keys" then .present "nodelim" else .failed)).toOption = none ∧
    gce.fetchSshKeys (fun _ => .absent) "p" = .ok [] ∧
    gce.fetchSshKeys (fun _ => .present "") "p" = .ok [] ∧
    ec2.fetchSshKeys (fun _ => .absent) = .ok [] ∧
    ec2.fetchSshKeys (fun _ => .present "") = .ok [] := by
  refine ⟨?_, ?_, ?_, ?_, ?_, ?_⟩
  · obtain ⟨e, he⟩ := claim_C6.1 (fun _ => .present "nodelim") "p" "nodelim" rfl
      ⟨("nodelim" : String).data, by decide, by decide, rfl⟩
    rw [he]
    rfl
  · obtain ⟨e, he⟩ := claim_C6.2.1 (fun k =>
        if k = "public-keys" then .present "nodelim" else .failed) "nodelim" rfl
      ⟨("nodelim" : String).data, by decide, rfl⟩
    rw [he]
    rfl
  · exact claim_C6.2.2.1 (fun _ => .absent) "p" (Or.inl rfl)
  · exact claim_C6.2.2.1 (fun _ => .present "") "p" (Or.inr rfl)
  · exact claim_C6.2.2.2 (fun _ => .absent) (Or.inl rfl)
  · exact claim_C6.2.2.2 (fun _ => .present "") (Or.inr rfl)

end CoreosMetadata
